import Mathlib

/-!
Shallow embedding of the email composition and concurrent delivery
pipeline of the `cloud-manager` repository (package `pkg/messaging`):
`message.go`, `message_status.go`, the `Attachment` type and the
OCI dispatch engine `oci_manager.go` (the AWS engine is structurally
identical and differs only in the credential type).

Go stdlib collaborators (`net/mail` address parsing, `time.Now`,
`mime.TypeByExtension`, `net/smtp` submission, the file system) are
modelled as explicit oracle parameters collected in `GoEnv`; the
functions of this repository are translated line by line from the
source.  Byte strings are `List Nat` (each entry < 256), Go buffer
writes become a list of emitted string chunks whose concatenation is
the final byte output, and a Go `error` value is an `Option String` /
`Except String` carrying the `fmt.Errorf` message.
-/

set_option linter.dupNamespace false

namespace CloudManager

/-- The `MessageStatus` from `message_status.go`: the five lifecycle states. -/
inductive MessageStatus where
  | NotSent
  | Queued
  | Sending
  | Sent
  | SendError
deriving DecidableEq

/-- A status is terminal when no further transition occurs afterwards. -/
def MessageStatus.isTerminal : MessageStatus → Bool
  | .Sent => true
  | .SendError => true
  | _ => false

/-- The `mail.Address` from Go's `net/mail`: a display name and an address. -/
structure Address where
  Name : String
  Address : String
deriving DecidableEq

/-- The `Header` : a custom header key/value pair. -/
structure Header where
  Key : String
  Value : String
deriving DecidableEq

/-- The `Attachment` from the messaging package: filename, raw bytes, inline flag. -/
structure Attachment where
  Filename : String
  Data : List Nat
  Inline : Bool
deriving DecidableEq

/-- The `Message` from `message.go`.  The Go `Attachments` field is a
`map[string]*Attachment`; it is modelled as an association list with
unique keys and insert-or-replace update, and timestamps are abstract
ticks. -/
structure Message where
  ID : String
  Subject : String
  Body : String
  Error : Option String
  Status : MessageStatus
  From : Address
  MailTo : List String
  CC : List String
  BCC : List String
  Reply : List String
  BodyContentType : String
  Headers : List Header
  Attachments : List (String × Attachment)
  DateReceived : Nat
  DateStatus : Nat
deriving DecidableEq

/-- Insert-or-replace on the association list modelling a Go map:
assigning `m[k] = v` replaces the entry at `k` if present, else adds it. -/
def mapInsert (k : String) (v : Attachment) :
    List (String × Attachment) → List (String × Attachment)
  | [] => [(k, v)]
  | (k', v') :: rest =>
      if k' = k then (k, v) :: rest else (k', v') :: mapInsert k v rest

/-- First value stored under key `k`, mirroring Go map lookup. -/
def mapLookup (k : String) : List (String × Attachment) → Option Attachment
  | [] => none
  | (k', v') :: rest => if k' = k then some v' else mapLookup k rest

/-- The `NewMessage` from `message.go`: defaults `BodyContentType` to
`text/html`, starts at `NotSent` with empty attachments. -/
def NewMessage (from_ : Address) (subject body bodyContentType : String)
    (mailTo cc bcc reply : List String) : Message :=
  let bct := if bodyContentType = "" then "text/html" else bodyContentType
  { ID := ""
    Subject := subject
    Body := body
    Error := none
    Status := .NotSent
    From := from_
    MailTo := mailTo
    CC := cc
    BCC := bcc
    Reply := reply
    BodyContentType := bct
    Headers := []
    Attachments := []
    DateReceived := 0
    DateStatus := 0 }

/-- A character matched by the filename regex class `[a-zA-Z0-9._-]`. -/
def isValidFilenameChar (c : Char) : Bool :=
  c.isAlpha || c.isDigit || c = '.' || c = '_' || c = '-'

/-- Scan for `sanitizeFilename`: a maximal run of characters outside
`[a-zA-Z0-9._-]` becomes a single underscore, matching the regex
`[^a-zA-Z0-9._-]+` with replacement `_`.  The flag records whether the
previous character was part of such a run. -/
def sanitizeAux : Bool → List Char → List Char
  | _, [] => []
  | prevBad, c :: cs =>
      if isValidFilenameChar c then c :: sanitizeAux false cs
      else if prevBad then sanitizeAux true cs
      else '_' :: sanitizeAux true cs

/-- The `sanitizeFilename` from `message.go`: replaces every maximal run of
characters outside `[a-zA-Z0-9._-]` with a single `_`. -/
def sanitizeFilename (filename : String) : String :=
  String.mk (sanitizeAux false filename.data)

/-- The `Message.AttachBuffer` from `message.go`: rejects an empty buffer,
otherwise stores the attachment under the sanitized filename. -/
def Message.AttachBuffer (m : Message) (filename : String) (buf : List Nat)
    (il : Bool) : Except String Message :=
  if buf.length = 0 then
    .error ("buffer for attachment '" ++ filename ++ "' is empty")
  else
    let att : Attachment :=
      { Filename := sanitizeFilename filename, Data := buf, Inline := il }
    .ok { m with Attachments := mapInsert (sanitizeFilename filename) att m.Attachments }

/-- Last path element, modelling `filepath.Base` as used by `attach`. -/
def basename (p : String) : String :=
  ((p.splitOn "/").getLast?).getD p

/-- The `Message.attach` from `message.go`: reads the file through the
file-system oracle `fs` (`none` models a read error), sanitizes the base
filename, and stores the attachment. -/
def Message.attach (fs : String → Option (List Nat)) (m : Message)
    (file : String) (il : Bool) : Except String Message :=
  match fs file with
  | none => .error ("failed to attach file '" ++ file ++ "'")
  | some data =>
      let filename := sanitizeFilename (basename file)
      let att : Attachment := { Filename := filename, Data := data, Inline := il }
      .ok { m with Attachments := mapInsert filename att m.Attachments }

/-- The `Message.Attach`: regular (not inline) file attachment. -/
def Message.Attach (fs : String → Option (List Nat)) (m : Message)
    (file : String) : Except String Message :=
  Message.attach fs m file false

/-- The `Message.Inline`: inline file attachment. -/
def Message.Inline (fs : String → Option (List Nat)) (m : Message)
    (file : String) : Except String Message :=
  Message.attach fs m file true

/-- The `Message.AddHeader` from `message.go`: appends a custom header. -/
def Message.AddHeader (m : Message) (key value : String) : Message × Header :=
  let header : Header := { Key := key, Value := value }
  ({ m with Headers := m.Headers ++ [header] }, header)

/-- The recipient validation loop of `Message.Tolist`: parses each entry
through the `net/mail` oracle `p`, aborting with the Go error message at
the first entry that fails to parse, and collecting the address-only
strings otherwise. -/
def parseLoop (p : String → Except String Address) :
    List String → Except String (List String)
  | [] => .ok []
  | r :: rs =>
      match p r with
      | .error err => .error ("invalid address '" ++ r ++ "': " ++ err)
      | .ok a =>
          match parseLoop p rs with
          | .error e => .error e
          | .ok l => .ok (a.Address :: l)

/-- The `Message.Tolist` from `message.go`: concatenates `MailTo ++ CC ++ BCC`
and validates every entry through the address parser. -/
def Message.Tolist (p : String → Except String Address) (m : Message) :
    Except String (List String) :=
  parseLoop p (m.MailTo ++ m.CC ++ m.BCC)

/-- The address-only string `p r` yields on success (`""` on failure);
used only to state what `Tolist` returns when every entry parses. -/
def addrOf (p : String → Except String Address) (r : String) : String :=
  match p r with
  | .ok a => a.Address
  | .error _ => ""

/-- The base64 alphabet of RFC 4648 used by Go's `encoding/base64`
`StdEncoding`. -/
def b64Alphabet : List Char :=
  "ABCDEFGHIJKLMNOPQRSTUVWXYZabcdefghijklmnopqrstuvwxyz0123456789+/".data

/-- The base64 digit for a 6-bit value. -/
def b64Char (n : Nat) : Char := b64Alphabet.getD n 'A'

/-- Standard base64 encoding of a byte sequence with `=` padding,
modelling `base64.StdEncoding` byte for byte. -/
def base64Encode : List Nat → List Char
  | [] => []
  | [b1] =>
      [b64Char (b1 / 4), b64Char (b1 % 4 * 16), '=', '=']
  | [b1, b2] =>
      [b64Char (b1 / 4), b64Char (b1 % 4 * 16 + b2 / 16),
       b64Char (b2 % 16 * 4), '=']
  | b1 :: b2 :: b3 :: rest =>
      b64Char (b1 / 4) :: b64Char (b1 % 4 * 16 + b2 / 16) ::
      b64Char (b2 % 16 * 4 + b3 / 64) :: b64Char (b3 % 64) ::
      base64Encode rest

/-- Base64 encoding as a string. -/
def base64String (bs : List Nat) : String := String.mk (base64Encode bs)

/-- UTF-8 encoding of one code point, as Go's `[]byte(string)` produces. -/
def utf8EncodeCharBytes (c : Char) : List Nat :=
  let n := c.toNat
  if n < 128 then [n]
  else if n < 2048 then [192 + n / 64, 128 + n % 64]
  else if n < 65536 then [224 + n / 4096, 128 + n / 64 % 64, 128 + n % 64]
  else [240 + n / 262144, 128 + n / 4096 % 64, 128 + n / 64 % 64, 128 + n % 64]

/-- UTF-8 bytes of a string, modelling Go's `[]byte(s)`. -/
def utf8Bytes (s : String) : List Nat := s.data.flatMap utf8EncodeCharBytes

/-- The `isUTF8` from `message.go`: Go ranges over the runes of the subject
and rejects the string as soon as it sees the replacement character
U+FFFD (which `range` also yields for invalid UTF-8 bytes). -/
def isUTF8 (s : String) : Bool :=
  s.data.all (fun r => r ≠ Char.ofNat 65533)

/-- Oracle bundle for the Go stdlib collaborators used by `Bytes` and the
dispatch engine: `net/mail` address parsing, the `time.Now` values
(rendered RFC 1123 string for the `Date:` header, abstract tick for the
`DateStatus` field), and `mime.TypeByExtension`. -/
structure GoEnv where
  parseAddress : String → Except String Address
  now : String
  nowTick : Nat
  mimeByExt : String → String

/-- The `mail.Address.String()` as used for the `From:` header: the
display-name quoting of `net/mail` is abstracted to the common case. -/
def renderAddress (a : Address) : String :=
  if a.Name = "" then "<" ++ a.Address ++ ">"
  else "\"" ++ a.Name ++ "\" <" ++ a.Address ++ ">"

/-- The `filepath.Ext`: the suffix of the last path element starting at its
final dot, or `""` when there is none. -/
def filepathExt (path : String) : String :=
  let rev := path.data.reverse
  let pre := rev.takeWhile (fun c => c ≠ '.' && c ≠ '/')
  match rev.drop pre.length with
  | '.' :: _ => String.mk ('.' :: pre.reverse)
  | _ => ""

/-- The content type chosen for an attachment part:
`mime.TypeByExtension` of the filename extension, defaulting to
`application/octet-stream` when the table has no entry. -/
def mimeTypeFor (env : GoEnv) (filename : String) : String :=
  let t := env.mimeByExt (filepathExt filename)
  if t = "" then "application/octet-stream" else t

/-- The hardcoded multipart boundary constant of `Message.Bytes`. -/
def mimeBoundary : String := "f46d043c813270fc6b04c2d223da"

/-- The chunks a single attachment part contributes to the output of
`Bytes`, in the order the source writes them. -/
def attachmentChunks (env : GoEnv) (att : Attachment) : List String :=
  ["--" ++ mimeBoundary ++ "\x0d\n",
   "Content-Type: " ++ mimeTypeFor env att.Filename ++ "\x0d\n",
   "Content-Disposition: attachment; filename=\"" ++ att.Filename ++ "\"\x0d\n",
   "Content-Transfer-Encoding: base64\x0d\n\x0d\n",
   base64String att.Data,
   "\x0d\n"]

/-- The body / attachment section of `Bytes`: multipart when attachments
exist, otherwise a single content part.  The Go map iteration over
attachments is determinized to association-list order. -/
def bodyChunks (env : GoEnv) (m : Message) : List String :=
  if m.Attachments.length > 0 then
    ["Content-Type: multipart/mixed; boundary=" ++ mimeBoundary ++ "\x0d\n\x0d\n",
     "--" ++ mimeBoundary ++ "\x0d\n",
     "Content-Type: " ++ m.BodyContentType ++ "; charset=utf-8\x0d\n\x0d\n",
     m.Body ++ "\x0d\n"] ++
    m.Attachments.flatMap (fun kv => attachmentChunks env kv.2) ++
    ["--" ++ mimeBoundary ++ "--\x0d\n"]
  else
    ["Content-Type: " ++ m.BodyContentType ++ "; charset=utf-8\x0d\n\x0d\n",
     m.Body ++ "\x0d\n"]

/-- The `Subject:` header line: an RFC 2047 B encoded-word holding the
standard base64 of the UTF-8 bytes of the subject. -/
def subjectLine (s : String) : String :=
  "Subject: =?UTF-8?B?" ++ base64String (utf8Bytes s) ++ "?=\x0d\n"

/-- The header chunks written before the subject check: `From:`, `Date:`,
`To:` and (when `CC` is non-empty) `Cc:`. -/
def preSubjectChunks (env : GoEnv) (m : Message) : List String :=
  ["From: " ++ renderAddress m.From ++ "\x0d\n",
   "Date: " ++ env.now ++ "\x0d\n",
   "To: " ++ String.intercalate ", " m.MailTo ++ "\x0d\n"] ++
  (if m.CC.length > 0 then ["Cc: " ++ String.intercalate ", " m.CC ++ "\x0d\n"] else [])

/-- The chunks written after the subject line: `Reply-To:` when present,
`MIME-Version`, the custom headers in insertion order, and the body /
attachment section. -/
def postSubjectChunks (env : GoEnv) (m : Message) : List String :=
  (if m.Reply.length > 0 then
    ["Reply-To: " ++ String.intercalate ", " m.Reply ++ "\x0d\n"] else []) ++
  ["MIME-Version: 1.0\x0d\n"] ++
  m.Headers.map (fun h => h.Key ++ ": " ++ h.Value ++ "\x0d\n") ++
  bodyChunks env m

/-- The `Message.Bytes` as the ordered list of buffer writes: validates the
`From` address, then the subject, and on success emits exactly the
chunks the source writes, in order. -/
def Message.BytesChunks (env : GoEnv) (m : Message) :
    Except String (List String) :=
  match env.parseAddress m.From.Address with
  | .error err => .error ("invalid 'From' address: " ++ err)
  | .ok _ =>
      if isUTF8 m.Subject then
        .ok (preSubjectChunks env m ++ [subjectLine m.Subject] ++ postSubjectChunks env m)
      else
        .error "subject contains non-UTF-8 characters"

/-- Concatenation of the buffer writes, giving the final byte output. -/
def concatChunks (l : List String) : String :=
  l.foldr (fun a b => a ++ b) ""

/-- The `Message.Bytes` from `message.go`: the concatenated chunk stream, or
the first validation error. -/
def Message.Bytes (env : GoEnv) (m : Message) : Except String String :=
  (Message.BytesChunks env m).map concatChunks

/-- The `smtp.Auth` as produced by `smtp.PlainAuth`. -/
structure SmtpAuth where
  identity : String
  username : String
  password : String
  host : String
deriving DecidableEq

/-- The `smtp.PlainAuth` from Go's `net/smtp`. -/
def plainAuth (identity username password host : String) : SmtpAuth :=
  { identity := identity, username := username, password := password, host := host }

/-- The SMTP fields of `authentication.OCIAuth` used by the manager. -/
structure OCIAuth where
  EmailHost : String
  EmailPort : String
  EmailUser : String
  EmailPassword : String
deriving DecidableEq

/-- The `OciManager` from `oci_manager.go`.  The `sync.RWMutex` and the
unused `sendContext` are concurrency plumbing with no data content and
are not part of the state; the batch slice `Messages` is the guarded
data. -/
structure OciManager where
  Auth : OCIAuth
  Client : Option SmtpAuth
  Messages : List Message

/-- The result of a Go call that may panic instead of returning. -/
inductive GoResult (α : Type) where
  | ok (v : α)
  | panicked (msg : String)
deriving DecidableEq

/-- The `OciManager.setup`: installs the PLAIN authenticator and returns
`(true, nil)` unconditionally. -/
def OciManager.setup (o : OciManager) : OciManager × Bool × Option String :=
  let client := plainAuth "" o.Auth.EmailUser o.Auth.EmailPassword o.Auth.EmailHost
  ({ o with Client := some client }, true, none)

/-- The `OciManager.AddMessage`: appends one message to the batch. -/
def OciManager.AddMessage (o : OciManager) (m : Message) : OciManager :=
  { o with Messages := o.Messages ++ [m] }

/-- The `OciManager.AddMessages`: appends a batch of messages. -/
def OciManager.AddMessages (o : OciManager) (ms : List Message) : OciManager :=
  { o with Messages := o.Messages ++ ms }

/-- The `OciManager.CancelSend`: runs `setup` and, unless setup reported
failure, hits `panic("implement me")`. -/
def OciManager.CancelSend (o : OciManager) : GoResult (Bool × Option String) :=
  let r := o.setup
  if !r.2.1 then .ok (false, r.2.2)
  else .panicked "implement me"

/-- The count of MaxOCIMessages, the channel capacity in the source. -/
def MaxOCIMessages : Nat := 10

/-- The worker `OciManager.send`, as the ordered list of snapshots it
publishes on the channel for its private copy `m`: the `Sending`
snapshot, then exactly one terminal snapshot.  `smtpResult` is the
`smtp.SendMail` oracle (`some err` models a transport failure); it is
consulted only when recipient-list building and serialization succeed,
exactly as in the source. -/
def OciManager.send (env : GoEnv) (smtpResult : Option String) (m : Message) :
    List Message :=
  let ms := { m with Status := .Sending }
  match Message.Tolist env.parseAddress ms with
  | .error err =>
      [ms, { ms with Status := .SendError, DateStatus := env.nowTick, Error := some err }]
  | .ok _ =>
      match Message.Bytes env ms with
      | .error err =>
          [ms, { ms with Status := .SendError, DateStatus := env.nowTick, Error := some err }]
      | .ok _ =>
          match smtpResult with
          | some err =>
              [ms, { ms with Status := .SendError, DateStatus := env.nowTick, Error := some err }]
          | none =>
              [ms, { ms with Status := .Sent, DateStatus := env.nowTick }]

/-- The full snapshot sequence one message contributes to the channel:
the dispatcher's `Queued` snapshot of the private copy, followed by the
worker's snapshots for that same copy. -/
def messageTrace (env : GoEnv) (smtpResult : Option String) (m : Message) :
    List Message :=
  let mq := { m with Status := .Queued }
  mq :: OciManager.send env smtpResult mq

/-- A fallback message for out-of-range batch reads; the dispatch loop
is bounded by the batch length and never reaches it. -/
def defaultMessage : Message :=
  NewMessage { Name := "", Address := "" } "" "" "" [] [] [] []

/-- The dispatch loop of `OciManager.sendMessage` over the first `n`
batch slots: each iteration reads slot `k` from the batch state, marks
the private copy `Queued`, publishes it, and runs the worker on the
copy.  The batch state is threaded unchanged because the loop body
contains no write to the slice.  Channel events are tagged with the
originating slot index; this fixed schedule is one admissible
interleaving of the per-message traces. -/
def dispatchLoop (env : GoEnv) (smtpRes : Nat → Option String)
    (batch : List Message) : Nat → List Message × List (Nat × Message)
  | 0 => (batch, [])
  | Nat.succ k =>
      let r := dispatchLoop env smtpRes batch k
      let m := r.1.getD k defaultMessage
      let mq := { m with Status := .Queued }
      (r.1, r.2 ++ (mq :: OciManager.send env (smtpRes k) mq).map (fun s => (k, s)))

/-- The `OciManager.sendMessage`: runs the dispatch loop over the whole
batch; returns the final batch state and the published event stream. -/
def sendMessageRun (env : GoEnv) (smtpRes : Nat → Option String)
    (batch : List Message) : List Message × List (Nat × Message) :=
  dispatchLoop env smtpRes batch batch.length

/-- The `OciManager.Send`: runs `setup`, and unless setup reported failure
(returning a nil channel) launches dispatch and returns the channel,
`started = true` and no error. -/
def OciManager.Send (env : GoEnv) (smtpRes : Nat → Option String)
    (o : OciManager) :
    Option (List Message × List (Nat × Message)) × Bool × Option String :=
  let r := o.setup
  if !r.2.1 then (none, false, r.2.2)
  else (some (sendMessageRun env smtpRes r.1.Messages), true, none)

/-- Go float division of the two counters, with `none` standing for the
NaN an empty batch would produce. -/
def floatDiv (a b : Nat) : Option ℚ :=
  if b = 0 then none else some ((a : ℚ) / (b : ℚ))

/-- The `OciManager.SendStatus`: runs `setup`, scans the batch under lock,
and returns the proportion of messages whose status is `Sent`. -/
def OciManager.SendStatus (o : OciManager) : Option ℚ × Option String :=
  let r := o.setup
  if !r.2.1 then (some 0, r.2.2)
  else
    let sent := (o.Messages.filter (fun m => m.Status = .Sent)).length
    (floatDiv sent o.Messages.length, none)

/-- The set of admissible channel histories for a dispatched batch:
every event carries the index of the worker that published it, all
indices are in range, and the events of each worker appear on the FIFO
channel in that worker's program order — so the per-index projection of
the stream is exactly the per-message trace.  The interleaving across
workers is otherwise arbitrary (scheduler-dependent). -/
def ChannelHistory (env : GoEnv) (smtpRes : Nat → Option String)
    (batch : List Message) (stream : List (Nat × Message)) : Prop :=
  (∀ e ∈ stream, e.1 < batch.length) ∧
  ∀ i, (h : i < batch.length) →
    (stream.filter (fun e => e.1 == i)).map Prod.snd =
      messageTrace env (smtpRes i) (batch.get ⟨i, h⟩)

/-- Equality on `Except` results is decidable componentwise; used to
evaluate the embedded operations at concrete inputs. -/
instance {ε α : Type} [DecidableEq ε] [DecidableEq α] :
    DecidableEq (Except ε α) := fun x y =>
  match x, y with
  | .ok a, .ok b => decidable_of_iff (a = b) (by simp)
  | .ok _, .error _ => isFalse (by intro h; cases h)
  | .error _, .ok _ => isFalse (by intro h; cases h)
  | .error e, .error f => decidable_of_iff (e = f) (by simp)

/-- Whether an address-parser call succeeded. -/
def exceptOk (r : Except String Address) : Bool :=
  match r with
  | .ok _ => true
  | .error _ => false

/-- Whether `Bytes` succeeded with a chunk list containing `s` as one of
its buffer writes. -/
def chunkMem (r : Except String (List String)) (s : String) : Bool :=
  match r with
  | .ok l => l.contains s
  | .error _ => false

/-- A builder-level attachment operation, used to state the attachment
key invariant over arbitrary operation sequences. -/
inductive AttachOp where
  | fileOp (path : String) (il : Bool)
  | bufferOp (filename : String) (data : List Nat) (il : Bool)

/-- The sanitized base filename an operation stores its attachment
under when it succeeds. -/
def opKey : AttachOp → String
  | .fileOp p _ => sanitizeFilename (basename p)
  | .bufferOp fn _ _ => sanitizeFilename fn

/-- Run one attachment operation; a failing operation (unreadable file,
empty buffer) leaves the message unchanged, as the caller keeps the old
value when the builder returns an error. -/
def applyOp (fs : String → Option (List Nat)) (m : Message) : AttachOp → Message
  | .fileOp p il =>
      match Message.attach fs m p il with
      | .ok m' => m'
      | .error _ => m
  | .bufferOp fn d il =>
      match Message.AttachBuffer m fn d il with
      | .ok m' => m'
      | .error _ => m

/-- Run a sequence of attachment operations left to right. -/
def applyOps (fs : String → Option (List Nat)) (m : Message)
    (ops : List AttachOp) : Message :=
  ops.foldl (applyOp fs) m

/-- A concrete stand-in for the `net/mail` parser, used only to
instantiate witness statements: accepts strings that contain `@` and no
space, returning them address-only. -/
def demoParseAddress (s : String) : Except String Address :=
  if s.data.contains '@' && !(s.data.contains ' ') then
    .ok { Name := "", Address := s }
  else .error "mail: missing word"

/-- Concrete oracle bundle for witnesses. -/
def demoEnv : GoEnv :=
  { parseAddress := demoParseAddress
    now := "Wed, 25 Dec 2024 10:00:00 -0300"
    nowTick := 7
    mimeByExt := fun _ => "" }

/-- The sample message of `message_test.go`. -/
def demoMsg : Message :=
  NewMessage { Name := "Test", Address := "from@email.com" } "Test Subject"
    "This is a test body." "text/plain" ["to@example.com"] ["cc@example.com"]
    ["bcc@example.com"] ["reply@example.com"]

/-- The sample message with `"not-an-email"` inserted into `CC`. -/
def demoBadCcMsg : Message :=
  { demoMsg with CC := ["not-an-email"], BCC := ["bcc@example.com"] }

/-- A message with no attachments, for the attachment-invariant witness. -/
def demoEmptyMsg : Message :=
  NewMessage { Name := "", Address := "a@b.co" } "S" "B" "" [] [] [] []

/-- A small concrete attachment. -/
def demoAttachment : Attachment :=
  { Filename := "a.txt", Data := [104, 105], Inline := false }

/-- Two different concrete messages, each with one attachment. -/
def demoMsgAtt1 : Message :=
  { demoMsg with Attachments := [("a.txt", demoAttachment)] }

/-- Second message for the boundary comparison, differing in subject. -/
def demoMsgAtt2 : Message :=
  { demoMsg with Subject := "Other", Attachments := [("a.txt", demoAttachment)] }

/-- A concrete manager: the batch has four messages, three of them
`Sent`. -/
def demoManager : OciManager :=
  { Auth := { EmailHost := "h", EmailPort := "25", EmailUser := "u", EmailPassword := "p" }
    Client := none
    Messages :=
      [{ demoMsg with Status := .Sent }, { demoMsg with Status := .Sent },
       { demoMsg with Status := .Sent }, demoMsg] }

/-- The sequential-schedule channel stream for the one-message batch
`[demoMsg]` with a succeeding SMTP submission. -/
def demoStream : List (Nat × Message) :=
  (messageTrace demoEnv none demoMsg).map (fun s => (0, s))

/-- The attachment record `AttachBuffer` builds for a buffer. -/
def bufAttachment (f : String) (b : List Nat) (i : Bool) : Attachment :=
  { Filename := sanitizeFilename f, Data := b, Inline := i }

/-- The message state after a successful `AttachBuffer` call. -/
def bufInserted (m : Message) (f : String) (b : List Nat) (i : Bool) : Message :=
  { m with Attachments :=
      mapInsert (sanitizeFilename f) (bufAttachment f b i) m.Attachments }

/-- C10: `setup()` returns `(true, nil)` unconditionally, so the
transport-setup failure branches are unreachable: `Send()` always
returns a non-nil channel, `started = true` and a nil error,
`SendStatus()` returns a nil error, and `CancelSend()` never takes its
pre-panic setup-error return. -/
theorem setup_infallible (o : OciManager) (env : GoEnv)
    (smtpRes : Nat → Option String) :
    o.setup.2 = (true, none) ∧
    (o.Send env smtpRes).1.isSome = true ∧
    (o.Send env smtpRes).2 = (true, none) ∧
    o.SendStatus.2 = none ∧
    o.CancelSend = .panicked "implement me" :=
  ⟨rfl, rfl, rfl, rfl, rfl⟩

/-- C2 (refuted by the code): `CancelSend` does not return an
`Unsupported` error value — after the (always successful) setup check it
executes `panic("implement me")` on every call. -/
theorem cancelSend_always_panics (o : OciManager) :
    o.CancelSend = .panicked "implement me" := rfl

/-- C3 (refuted by the code): the multipart boundary token is the fixed
constant `f46d043c813270fc6b04c2d223da`.  Two different messages (and a
fortiori two calls on the same message, `Bytes` being a pure function of
the message and oracle) emit the same boundary line. -/
theorem fixed_mime_boundary :
    demoMsgAtt1 ≠ demoMsgAtt2 ∧
    chunkMem (Message.BytesChunks demoEnv demoMsgAtt1)
      ("--" ++ mimeBoundary ++ "\x0d\n") = true ∧
    chunkMem (Message.BytesChunks demoEnv demoMsgAtt2)
      ("--" ++ mimeBoundary ++ "\x0d\n") = true := by
  refine ⟨by decide, by decide, by decide⟩

/-- C4: dispatch never mutates the batch slice: the loop reads each slot
into a private copy, the copy alone is mutated and published, and the
final batch state equals the initial one in every slot and field. -/
theorem dispatch_preserves_batch (env : GoEnv) (smtpRes : Nat → Option String)
    (batch : List Message) :
    (sendMessageRun env smtpRes batch).1 = batch := by
  have hloop : ∀ n, (dispatchLoop env smtpRes batch n).1 = batch := by
    intro n
    induction n with
    | zero => rfl
    | succ k ih => simp [dispatchLoop, ih]
  exact hloop batch.length

/-- C5: on a non-empty batch, `SendStatus` returns without error the
count of messages whose status is `Sent` divided by the batch size. -/
theorem sendStatus_ratio (o : OciManager) (hne : o.Messages ≠ []) :
    o.SendStatus =
      (some (((o.Messages.filter (fun m => m.Status = .Sent)).length : ℚ) /
        (o.Messages.length : ℚ)), none) := by
  have hlen : o.Messages.length ≠ 0 := fun h => hne (List.length_eq_zero.mp h)
  simp [OciManager.SendStatus, OciManager.setup, floatDiv, hlen]

/-- Witness for C5: a batch where 3 of 4 messages reached `Sent`
reports the ratio `0.75`. -/
theorem sendStatus_ratio_witness :
    demoManager.SendStatus = (some ((3 : ℚ) / 4), none) := by
  have h := sendStatus_ratio demoManager (by decide)
  have hlen : (demoManager.Messages.filter (fun m => m.Status = .Sent)).length = 3 := by
    decide
  have htot : demoManager.Messages.length = 4 := by decide
  rw [h, hlen, htot]
  norm_num

/-- When every entry parses, the validation loop returns the
address-only strings, one per entry, in order. -/
theorem parseLoop_all_ok (p : String → Except String Address)
    (l : List String) (h : ∀ r ∈ l, exceptOk (p r) = true) :
    parseLoop p l = .ok (l.map (addrOf p)) := by
  induction l with
  | nil => rfl
  | cons r rs ih =>
      have hr := h r (by simp)
      cases hp : p r with
      | error e => rw [hp] at hr; simp [exceptOk] at hr
      | ok a =>
          have hrs := ih (fun q hq => h q (by simp [hq]))
          simp [parseLoop, hp, hrs, addrOf]

/-- When the entries up to some position parse and that position does
not, the loop stops with the Go error message naming that entry. -/
theorem parseLoop_first_error (p : String → Except String Address)
    (pre : List String) (r : String) (rest : List String)
    (hpre : ∀ q ∈ pre, exceptOk (p q) = true) (err : String)
    (hr : p r = .error err) :
    parseLoop p (pre ++ r :: rest) =
      .error ("invalid address '" ++ r ++ "': " ++ err) := by
  induction pre with
  | nil => simp [parseLoop, hr]
  | cons q qs ih =>
      have hq := hpre q (by simp)
      cases hpq : p q with
      | error e => rw [hpq] at hq; simp [exceptOk] at hq
      | ok a =>
          have hqs := ih (fun x hx => hpre x (by simp [hx]))
          simp [parseLoop, hpq, hqs]

/-- C6: `Tolist` concatenates `MailTo ++ CC ++ BCC` in that order and
runs each entry through the address parser.  When every entry parses it
returns the address-only strings in that same order, duplicates kept
(the result is the entrywise image of the concatenation); when some
entry fails, it returns no list and fails with the validation error
naming the first invalid entry. -/
theorem tolist_spec (p : String → Except String Address) (m : Message) :
    ((∀ r ∈ m.MailTo ++ m.CC ++ m.BCC, exceptOk (p r) = true) →
        Message.Tolist p m = .ok ((m.MailTo ++ m.CC ++ m.BCC).map (addrOf p))) ∧
    (∀ pre r rest err, m.MailTo ++ m.CC ++ m.BCC = pre ++ r :: rest →
        (∀ q ∈ pre, exceptOk (p q) = true) → p r = .error err →
        Message.Tolist p m =
          .error ("invalid address '" ++ r ++ "': " ++ err)) := by
  constructor
  · intro h
    exact parseLoop_all_ok p _ h
  · intro pre r rest err heq hpre hr
    unfold Message.Tolist
    rw [heq]
    exact parseLoop_first_error p pre r rest hpre err hr

/-- Witness for C6: on the sample message the recipients aggregate in
order `To, CC, BCC`; with `"not-an-email"` in `CC` the call fails with
the validation error naming that entry. -/
theorem tolist_spec_witness :
    Message.Tolist demoParseAddress demoMsg =
      .ok ["to@example.com", "cc@example.com", "bcc@example.com"] ∧
    Message.Tolist demoParseAddress demoBadCcMsg =
      .error "invalid address 'not-an-email': mail: missing word" := by
  constructor
  · exact ((tolist_spec demoParseAddress demoMsg).1 (by decide)).trans (by decide)
  · exact ((tolist_spec demoParseAddress demoBadCcMsg).2 ["to@example.com"]
      "not-an-email" ["bcc@example.com"] "mail: missing word" (by decide)
      (by decide) (by decide)).trans (by decide)

/-- Concatenating buffer writes distributes over list append. -/
theorem concatChunks_append (xs ys : List String) :
    concatChunks (xs ++ ys) = concatChunks xs ++ concatChunks ys := by
  induction xs with
  | nil => rfl
  | cons a l ih =>
      show a ++ concatChunks (l ++ ys) = (a ++ concatChunks l) ++ concatChunks ys
      rw [ih, String.append_assoc]

/-- Concatenating a chunk list beginning with `a` prepends `a`. -/
theorem concatChunks_cons (a : String) (l : List String) :
    concatChunks (a :: l) = a ++ concatChunks l := rfl

/-- C7: whenever the `From` address parses, `Bytes` on a subject free of
replacement characters succeeds and its output contains the exact header
line `Subject: =?UTF-8?B?<base64 of the UTF-8 bytes of the subject>?=`,
and on a subject containing a replacement character it fails with the
encoding error. -/
theorem subject_header_encoding (env : GoEnv) (m : Message)
    (hFrom : exceptOk (env.parseAddress m.From.Address) = true) :
    (isUTF8 m.Subject = true →
      ∃ pre post, Message.Bytes env m =
        .ok (pre ++ ("Subject: =?UTF-8?B?" ++ base64String (utf8Bytes m.Subject) ++
          "?=\x0d\n" ++ post))) ∧
    (isUTF8 m.Subject = false →
      Message.Bytes env m = .error "subject contains non-UTF-8 characters") := by
  cases hp : env.parseAddress m.From.Address with
  | error e => rw [hp] at hFrom; simp [exceptOk] at hFrom
  | ok a =>
      constructor
      · intro hs
        refine ⟨concatChunks (preSubjectChunks env m),
          concatChunks (postSubjectChunks env m), ?_⟩
        unfold Message.Bytes Message.BytesChunks
        rw [hp]
        simp only [hs, if_true]
        rw [Except.map]
        rw [List.append_assoc, concatChunks_append, List.singleton_append,
          concatChunks_cons]
        simp [subjectLine, String.append_assoc]
      · intro hs
        unfold Message.Bytes Message.BytesChunks
        rw [hp]
        simp [hs, Except.map]

/-- Witness for C7: on the sample message the subject `Test Subject` is
emitted as the encoded word `=?UTF-8?B?VGVzdCBTdWJqZWN0?=`. -/
theorem subject_header_encoding_witness :
    base64String (utf8Bytes "Test Subject") = "VGVzdCBTdWJqZWN0" ∧
    (∃ pre post, Message.Bytes demoEnv demoMsg =
      .ok (pre ++ ("Subject: =?UTF-8?B?" ++ base64String (utf8Bytes demoMsg.Subject) ++
        "?=\x0d\n" ++ post))) :=
  ⟨by decide, (subject_header_encoding demoEnv demoMsg (by decide)).1 (by decide)⟩

/-- Membership after a map assignment: an entry of the updated map is
either the assigned pair or an entry of the old map. -/
theorem mem_mapInsert (k : String) (v : Attachment)
    (l : List (String × Attachment)) (kv : String × Attachment)
    (h : kv ∈ mapInsert k v l) : kv = (k, v) ∨ kv ∈ l := by
  induction l with
  | nil => simpa [mapInsert] using h
  | cons p rest ih =>
      obtain ⟨k', v'⟩ := p
      by_cases hk : k' = k
      · rw [mapInsert, if_pos hk] at h
        rcases List.mem_cons.mp h with h1 | h1
        · exact .inl h1
        · exact .inr (List.mem_cons_of_mem _ h1)
      · rw [mapInsert, if_neg hk] at h
        rcases List.mem_cons.mp h with h1 | h1
        · exact .inr (by simp [h1])
        · rcases ih h1 with h2 | h2
          · exact .inl h2
          · exact .inr (List.mem_cons_of_mem _ h2)

/-- One attachment operation only ever adds an entry keyed by the
sanitized base filename of that operation. -/
theorem applyOp_keys (fs : String → Option (List Nat)) (m : Message)
    (op : AttachOp) (kv : String × Attachment)
    (h : kv ∈ (applyOp fs m op).Attachments) :
    kv.1 = opKey op ∨ kv ∈ m.Attachments := by
  cases op with
  | fileOp p il =>
      rw [applyOp] at h
      unfold Message.attach at h
      cases hfs : fs p with
      | none => rw [hfs] at h; exact .inr h
      | some data =>
          rw [hfs] at h
          simp only at h
          rcases mem_mapInsert _ _ _ _ h with h1 | h1
          · exact .inl (by rw [h1, opKey])
          · exact .inr h1
  | bufferOp fn d il =>
      rw [applyOp] at h
      unfold Message.AttachBuffer at h
      by_cases hd : d.length = 0
      · rw [if_pos hd] at h; exact .inr h
      · rw [if_neg hd] at h
        simp only at h
        rcases mem_mapInsert _ _ _ _ h with h1 | h1
        · exact .inl (by rw [h1, opKey])
        · exact .inr h1

/-- Keys accumulated over an operation sequence come from the sequence
or from the starting map. -/
theorem applyOps_keys (fs : String → Option (List Nat)) (ops : List AttachOp) :
    ∀ (m : Message), ∀ kv ∈ (applyOps fs m ops).Attachments,
      (∃ op ∈ ops, kv.1 = opKey op) ∨ kv ∈ m.Attachments := by
  induction ops with
  | nil => intro m kv h; exact .inr h
  | cons op rest ih =>
      intro m kv h
      rcases ih (applyOp fs m op) kv h with h1 | h1
      · rcases h1 with ⟨op', hop', hk⟩
        exact .inl ⟨op', by simp [hop'], hk⟩
      · rcases applyOp_keys fs m op kv h1 with h2 | h2
        · exact .inl ⟨op, by simp, h2⟩
        · exact .inr h2

/-- C8: starting from a message with no attachments, after any sequence
of `Attach`, `Inline` and `AttachBuffer` operations every key of
`Attachments` is the sanitized form (`[^A-Za-z0-9._-]` runs replaced by
`_`) of the base filename the corresponding operation attached. -/
theorem attachment_keys_sanitized (fs : String → Option (List Nat))
    (m : Message) (h0 : m.Attachments = []) (ops : List AttachOp) :
    ∀ kv ∈ (applyOps fs m ops).Attachments, ∃ op ∈ ops, kv.1 = opKey op := by
  intro kv h
  rcases applyOps_keys fs ops m kv h with h1 | h1
  · exact h1
  · rw [h0] at h1; cases h1

/-- Witness for C8: attaching a buffer named `my file@v1.txt` stores it
under the key `my_file_v1.txt`, which is `opKey` of that operation. -/
theorem attachment_keys_sanitized_witness :
    (∀ kv ∈ (applyOps (fun _ => none) demoEmptyMsg
        [AttachOp.bufferOp "my file@v1.txt" [104, 105] false]).Attachments,
      ∃ op ∈ [AttachOp.bufferOp "my file@v1.txt" [104, 105] false],
        kv.1 = opKey op) ∧
    (applyOps (fun _ => none) demoEmptyMsg
        [AttachOp.bufferOp "my file@v1.txt" [104, 105] false]).Attachments.map
      Prod.fst = ["my_file_v1.txt"] :=
  ⟨attachment_keys_sanitized (fun _ => none) demoEmptyMsg rfl
      [AttachOp.bufferOp "my file@v1.txt" [104, 105] false],
   by decide⟩

/-- Assigning the same key twice keeps only the second assignment. -/
theorem mapInsert_insert_same (k : String) (v1 v2 : Attachment)
    (l : List (String × Attachment)) :
    mapInsert k v2 (mapInsert k v1 l) = mapInsert k v2 l := by
  induction l with
  | nil => simp [mapInsert]
  | cons p rest ih =>
      obtain ⟨k', v'⟩ := p
      by_cases h : k' = k
      · simp [mapInsert, h]
      · simp [mapInsert, h, ih]

/-- A key absent from the map matches no entry. -/
theorem filter_key_nil (k : String) (l : List (String × Attachment))
    (h : k ∉ l.map Prod.fst) :
    (l.filter (fun kv => kv.1 == k)).length = 0 := by
  induction l with
  | nil => rfl
  | cons p rest ih =>
      obtain ⟨k', v'⟩ := p
      simp only [List.map_cons, List.mem_cons] at h
      push_neg at h
      have hk : (k' == k) = false := by
        simpa [beq_iff_eq] using fun he => h.1 he.symm
      simp [List.filter_cons, hk, ih h.2]

/-- After assigning key `k` in a map with unique keys, exactly one
entry carries `k`. -/
theorem mapInsert_count (k : String) (v : Attachment)
    (l : List (String × Attachment)) (hnd : (l.map Prod.fst).Nodup) :
    ((mapInsert k v l).filter (fun kv => kv.1 == k)).length = 1 := by
  induction l with
  | nil => simp [mapInsert]
  | cons p rest ih =>
      obtain ⟨k', v'⟩ := p
      simp only [List.map_cons, List.nodup_cons] at hnd
      by_cases h : k' = k
      · subst h
        rw [mapInsert, if_pos rfl]
        simp [List.filter_cons, filter_key_nil k' rest hnd.1]
      · rw [mapInsert, if_neg h]
        have hk : (k' == k) = false := by simpa [beq_iff_eq] using h
        simp [List.filter_cons, hk, ih hnd.2]

/-- The assigned value is the one looked up afterwards. -/
theorem mapInsert_lookup (k : String) (v : Attachment)
    (l : List (String × Attachment)) :
    mapLookup k (mapInsert k v l) = some v := by
  induction l with
  | nil => simp [mapInsert, mapLookup]
  | cons p rest ih =>
      obtain ⟨k', v'⟩ := p
      by_cases h : k' = k
      · simp [mapInsert, mapLookup, h]
      · simp [mapInsert, mapLookup, h, ih]

/-- C9: attaching two non-empty buffers whose filenames sanitize to the
same key succeeds both times and leaves exactly one entry under that
key, holding the second buffer's data and inline flag. -/
theorem attachBuffer_last_write_wins (m : Message) (f1 f2 : String)
    (b1 b2 : List Nat) (i1 i2 : Bool)
    (hnd : (m.Attachments.map Prod.fst).Nodup)
    (hcol : sanitizeFilename f1 = sanitizeFilename f2)
    (h1 : b1 ≠ []) (h2 : b2 ≠ []) :
    ∃ m1 m2, m.AttachBuffer f1 b1 i1 = .ok m1 ∧
      m1.AttachBuffer f2 b2 i2 = .ok m2 ∧
      (m2.Attachments.filter (fun kv => kv.1 == sanitizeFilename f2)).length = 1 ∧
      mapLookup (sanitizeFilename f2) m2.Attachments =
        some { Filename := sanitizeFilename f2, Data := b2, Inline := i2 } := by
  have hl1 : ¬ b1.length = 0 := fun h => h1 (List.length_eq_zero.mp h)
  have hl2 : ¬ b2.length = 0 := fun h => h2 (List.length_eq_zero.mp h)
  refine ⟨bufInserted m f1 b1 i1, bufInserted (bufInserted m f1 b1 i1) f2 b2 i2,
    ?_, ?_, ?_, ?_⟩
  · unfold Message.AttachBuffer
    rw [if_neg hl1]
    rfl
  · unfold Message.AttachBuffer
    rw [if_neg hl2]
    rfl
  · show ((mapInsert (sanitizeFilename f2) (bufAttachment f2 b2 i2)
        (mapInsert (sanitizeFilename f1) (bufAttachment f1 b1 i1)
          m.Attachments)).filter (fun kv => kv.1 == sanitizeFilename f2)).length = 1
    rw [hcol, mapInsert_insert_same]
    exact mapInsert_count _ _ _ hnd
  · show mapLookup (sanitizeFilename f2) (mapInsert (sanitizeFilename f2)
        (bufAttachment f2 b2 i2)
        (mapInsert (sanitizeFilename f1) (bufAttachment f1 b1 i1)
          m.Attachments)) =
      some { Filename := sanitizeFilename f2, Data := b2, Inline := i2 }
    rw [hcol, mapInsert_insert_same]
    exact mapInsert_lookup _ _ _

/-- Witness for C9: `"a b"` and `"a_b"` both sanitize to `"a_b"`; after
attaching both buffers the single surviving entry holds the second
buffer. -/
theorem attachBuffer_last_write_wins_witness :
    ∃ m1 m2, demoEmptyMsg.AttachBuffer "a b" [1] false = .ok m1 ∧
      m1.AttachBuffer "a_b" [2, 3] true = .ok m2 ∧
      (m2.Attachments.filter (fun kv => kv.1 == sanitizeFilename "a_b")).length = 1 ∧
      mapLookup (sanitizeFilename "a_b") m2.Attachments =
        some { Filename := sanitizeFilename "a_b", Data := [2, 3], Inline := true } :=
  attachBuffer_last_write_wins demoEmptyMsg "a b" "a_b" [1] [2, 3] false true
    (by decide) (by decide) (by decide) (by decide)

/-- The worker publishes exactly the statuses `Sending` then `Sent`, or
`Sending` then `SendError`, whichever way its three fallible steps go. -/
theorem send_statuses (env : GoEnv) (r : Option String) (m : Message) :
    (OciManager.send env r m).map Message.Status = [.Sending, .Sent] ∨
    (OciManager.send env r m).map Message.Status = [.Sending, .SendError] := by
  cases htl : Message.Tolist env.parseAddress { m with Status := .Sending } with
  | error err => right; simp [OciManager.send, htl]
  | ok l =>
      cases hb : Message.Bytes env { m with Status := .Sending } with
      | error err => right; simp [OciManager.send, htl, hb]
      | ok d =>
          cases r with
          | some err => right; simp [OciManager.send, htl, hb]
          | none => left; simp [OciManager.send, htl, hb]

/-- The worker publishes exactly one terminal snapshot. -/
theorem send_terminal_count (env : GoEnv) (r : Option String) (m : Message) :
    ((OciManager.send env r m).filter (fun s => s.Status.isTerminal)).length = 1 := by
  cases htl : Message.Tolist env.parseAddress { m with Status := .Sending } with
  | error err => simp [OciManager.send, htl, MessageStatus.isTerminal]
  | ok l =>
      cases hb : Message.Bytes env { m with Status := .Sending } with
      | error err => simp [OciManager.send, htl, hb, MessageStatus.isTerminal]
      | ok d =>
          cases r with
          | some err => simp [OciManager.send, htl, hb, MessageStatus.isTerminal]
          | none => simp [OciManager.send, htl, hb, MessageStatus.isTerminal]

/-- Per-message status sequence: `Queued`, `Sending`, then one terminal
status. -/
theorem trace_statuses (env : GoEnv) (r : Option String) (m : Message) :
    (messageTrace env r m).map Message.Status = [.Queued, .Sending, .Sent] ∨
    (messageTrace env r m).map Message.Status = [.Queued, .Sending, .SendError] := by
  rcases send_statuses env r { m with Status := .Queued } with h | h
  · left; simp [messageTrace, h]
  · right; simp [messageTrace, h]

/-- Each per-message trace carries exactly one terminal snapshot. -/
theorem trace_terminal_count (env : GoEnv) (r : Option String) (m : Message) :
    ((messageTrace env r m).filter (fun s => s.Status.isTerminal)).length = 1 := by
  show ((({ m with Status := .Queued } : Message) ::
      OciManager.send env r { m with Status := .Queued }).filter
        (fun s => s.Status.isTerminal)).length = 1
  rw [List.filter_cons, if_neg (fun hh => Bool.noConfusion hh)]
  exact send_terminal_count env r { m with Status := .Queued }

/-- Counting over a tagged stream partitions along the tags when every
tag is in range. -/
theorem countP_tag_partition (P : Nat × Message → Bool) (N : Nat)
    (stream : List (Nat × Message)) (h : ∀ e ∈ stream, e.1 < N) :
    stream.countP P =
      Finset.sum (Finset.range N)
        (fun i => (stream.filter (fun e => e.1 == i)).countP P) := by
  induction stream with
  | nil => simp
  | cons e s ih =>
      have he : e.1 < N := h e (by simp)
      have hs : ∀ x ∈ s, x.1 < N := fun x hx => h x (by simp [hx])
      have hsplit : ∀ i ∈ Finset.range N,
          ((e :: s).filter (fun x => x.1 == i)).countP P =
            (s.filter (fun x => x.1 == i)).countP P +
              (if e.1 = i then (if P e then 1 else 0) else 0) := by
        intro i _
        by_cases hei : e.1 = i
        · simp [List.filter_cons, hei, List.countP_cons]
        · simp [List.filter_cons, hei]
      rw [List.countP_cons, ih hs, Finset.sum_congr rfl hsplit,
        Finset.sum_add_distrib]
      congr 1
      rw [Finset.sum_ite_eq (Finset.range N) e.1 (fun _ => if P e then 1 else 0)]
      simp [he]

/-- C1: on every admissible channel history of a dispatched batch, each
message's snapshots appear in exactly the order `Queued`, `Sending`,
then one terminal status (`Sent` or `SendError`), and a batch of `N`
messages yields exactly `N` terminal snapshots on the channel before it
closes. -/
theorem status_lifecycle_and_completeness (env : GoEnv)
    (smtpRes : Nat → Option String) (batch : List Message)
    (stream : List (Nat × Message))
    (hist : ChannelHistory env smtpRes batch stream) :
    (∀ i, (h : i < batch.length) →
        ((stream.filter (fun e => e.1 == i)).map (fun e => e.2.Status) =
            [.Queued, .Sending, .Sent] ∨
         (stream.filter (fun e => e.1 == i)).map (fun e => e.2.Status) =
            [.Queued, .Sending, .SendError])) ∧
    (stream.filter (fun e => e.2.Status.isTerminal)).length = batch.length := by
  obtain ⟨htag, hproj⟩ := hist
  constructor
  · intro i h
    have hp := hproj i h
    have hmm : (stream.filter (fun e => e.1 == i)).map (fun e => e.2.Status) =
        (messageTrace env (smtpRes i) (batch.get ⟨i, h⟩)).map Message.Status := by
      rw [← hp, List.map_map]
      rfl
    rw [hmm]
    exact trace_statuses env (smtpRes i) (batch.get ⟨i, h⟩)
  · rw [← List.countP_eq_length_filter]
    rw [countP_tag_partition (fun e => e.2.Status.isTerminal) batch.length
      stream htag]
    have hone : ∀ i ∈ Finset.range batch.length,
        (stream.filter (fun e => e.1 == i)).countP
          (fun e => e.2.Status.isTerminal) = 1 := by
      intro i hi
      have h : i < batch.length := Finset.mem_range.mp hi
      have hp := hproj i h
      have hm : (stream.filter (fun e => e.1 == i)).countP
            (fun e => e.2.Status.isTerminal) =
          ((stream.filter (fun e => e.1 == i)).map Prod.snd).countP
            (fun s => s.Status.isTerminal) := by
        rw [List.countP_map]
        rfl
      rw [hm, hp, List.countP_eq_length_filter]
      exact trace_terminal_count env (smtpRes i) (batch.get ⟨i, h⟩)
    rw [Finset.sum_congr rfl hone]
    simp

/-- Witness for C1: the sequential schedule for the one-message batch
`[demoMsg]` is an admissible history; it carries the status sequence
`Queued, Sending, Sent` and exactly one terminal snapshot. -/
theorem status_lifecycle_and_completeness_witness :
    (∀ i, (h : i < ([demoMsg] : List Message).length) →
        ((demoStream.filter (fun e => e.1 == i)).map (fun e => e.2.Status) =
            [.Queued, .Sending, .Sent] ∨
         (demoStream.filter (fun e => e.1 == i)).map (fun e => e.2.Status) =
            [.Queued, .Sending, .SendError])) ∧
    (demoStream.filter (fun e => e.2.Status.isTerminal)).length =
      ([demoMsg] : List Message).length :=
  status_lifecycle_and_completeness demoEnv (fun _ => none) [demoMsg] demoStream
    ⟨by decide, by decide⟩
